import Mathlib

/-!
Verification of the service lifecycle engine of `systemctl.py`
(docker-systemctl-replacement), as a shallow embedding in Lean 4.

Strings from the Python source are modelled by Lean `String`; character
level operations (strip, split, regex-shaped matches) are defined on
`String.data`.  The filesystem, the process table and subprocess exit
codes are explicit parameters, since the engine queries them afresh on
every call (the engine is stateless by design).
-/

namespace SystemctlPy

/-! ## Character and string helpers (models of Python str operations) -/

/-- The single-quote character, written numerically. -/
def squote : Char := Char.ofNat 39

/-- The double-quote character. -/
def dquote : Char := Char.ofNat 34

/-- Model of Python `str.strip` on a list of characters:
whitespace removed from both ends. -/
def pyStripL (l : List Char) : List Char :=
  ((l.dropWhile Char.isWhitespace).reverse.dropWhile Char.isWhitespace).reverse

/-- Model of Python `str.strip` on `String`. -/
def pyStrip (s : String) : String := ⟨pyStripL s.data⟩

/-- Model of Python `str.startswith` for a one-character prefix test,
stated on the character list. -/
def pyStartsWith (s : String) (c : Char) : Bool :=
  match s.data with
  | [] => false
  | x :: _ => x == c

/-- Model of Python `s[1:]`. -/
def pyDropOne (s : String) : String := ⟨s.data.tail⟩

/-- Split a character list at every occurrence of `c` (model of
Python `str.split(c)` for a one-character separator). -/
def splitOnCharAux (c : Char) : List Char → List Char → List (List Char)
  | [], acc => [acc.reverse]
  | x :: xs, acc =>
    if x == c then acc.reverse :: splitOnCharAux c xs []
    else splitOnCharAux c xs (x :: acc)

/-- Split a string at every occurrence of `c`. -/
def splitOnChar (c : Char) (s : String) : List String :=
  (splitOnCharAux c s.data []).map (fun l => ⟨l⟩)

/-- A character matched by the regex class `[\w_]` (Python 2 `str`
patterns): ASCII letters, digits and underscore. -/
def isWordChar (c : Char) : Bool := c.isAlphanum || c == '_'

/-- Model of `os.path.basename`: the part after the final slash. -/
def basename (s : String) : String :=
  ⟨(s.data.reverse.takeWhile (· != '/')).reverse⟩

/-- Model of `os.path.dirname` for an absolute multi-component path: the part
before the final slash. -/
def dirname (s : String) : String :=
  ⟨((s.data.reverse.dropWhile (· != '/')).drop 1).reverse⟩

/-- Model of `os.path.abspath`: on the absolute paths the engine uses this is the
identity; the model assumes paths are already absolute. -/
def abspath (s : String) : String := s

/-! ## Decimal printing and parsing (models of Python `str(int)` and `int(str)`) -/

/-- The character for decimal digit `d`. -/
def digitChar (d : Nat) : Char := Char.ofNat (48 + d)

/-- Big-endian decimal digits of `n`, driven by fuel (`fuel ≥ n` suffices). -/
def natCharsAux : Nat → Nat → List Char
  | 0, _ => []
  | fuel + 1, n =>
    if n = 0 then []
    else natCharsAux fuel (n / 10) ++ [digitChar (n % 10)]

/-- Decimal representation of a natural number, as Python `str` prints it. -/
def natChars (n : Nat) : List Char :=
  if n = 0 then ['0'] else natCharsAux n n

/-- Python `str(i)` for an integer. -/
def intStr (i : Int) : String :=
  if i < 0 then ⟨'-' :: natChars i.natAbs⟩ else ⟨natChars i.natAbs⟩

/-- Accumulating decimal parse; fails on any non-digit character. -/
def parseDigitsAux (acc : Nat) : List Char → Option Nat
  | [] => some acc
  | c :: cs =>
    if c.isDigit then parseDigitsAux (acc * 10 + (c.toNat - 48)) cs else none

/-- Parse a non-empty all-digit character list as a natural number. -/
def parseDigits (l : List Char) : Option Nat :=
  match l with
  | [] => none
  | _ => parseDigitsAux 0 l

/-- Model of Python `int(s)` on an already-stripped character list:
optional sign followed by at least one decimal digit; `none` models
the `ValueError` raised otherwise. -/
def pyIntParseL (l : List Char) : Option Int :=
  match l with
  | [] => none
  | c :: cs =>
    if c == '-' then (parseDigits cs).map (fun n => -(n : Int))
    else if c == '+' then (parseDigits cs).map (fun n => (n : Int))
    else (parseDigits (c :: cs)).map (fun n => (n : Int))

/-- Model of Python `int(s)` on an already-stripped string. -/
def pyIntParse (s : String) : Option Int := pyIntParseL s.data

/-- The value accumulated by a decimal parse over digit characters. -/
def digitsVal (acc : Nat) (l : List Char) : Nat :=
  l.foldl (fun a c => a * 10 + (c.toNat - 48)) acc

/-! ## `checkstatus` (systemctl.py lines 52-56) -/

/-- Model of `checkstatus(cmd)`: a leading `-` clears the check flag and is
stripped from the command. -/
def checkstatus (cmd : String) : Bool × String :=
  if pyStartsWith cmd '-' then (false, pyDropOne cmd) else (true, cmd)

/-! ## `pid_exists` (systemctl.py lines 22-50) -/

/-- Outcome of the `os.kill(pid, 0)` probe: success or an `errno`. -/
inductive KillRes where
  | ok
  | esrch
  | eperm
  | einval
  deriving DecidableEq, Repr

/-- Errors `pid_exists` can raise: `ValueError` for pid 0, or a
re-raised `OSError` from the signal probe. -/
inductive PidErr where
  | valueError
  | osError (e : KillRes)
  deriving DecidableEq, Repr

/-- Model of `pid_exists(pid)`: `None` and negative pids are dead, pid 0 raises
`ValueError`, otherwise signal zero is sent and `ESRCH` means dead,
`EPERM` means alive, success means alive, anything else re-raises.
The process table is the oracle `kill0`. -/
def pid_exists (kill0 : Int → KillRes) (pid : Option Int) : Except PidErr Bool :=
  match pid with
  | none => .ok false
  | some p =>
    if p < 0 then .ok false
    else if p = 0 then .error .valueError
    else
      match kill0 p with
      | .ok => .ok true
      | .esrch => .ok false
      | .eperm => .ok true
      | e => .error (.osError e)

/-! ## `UnitConfigParser` (systemctl.py lines 64-227) -/

/-- Update an association list at a key, replacing in place or
appending a new binding (model of a Python dict assignment). -/
def assocSet {α : Type} [DecidableEq α] {β : Type} (k : α) (v : β) :
    List (α × β) → List (α × β)
  | [] => [(k, v)]
  | (k', v') :: rest =>
    if k' = k then (k, v) :: rest else (k', v') :: assocSet k v rest

/-- The parsed-descriptor model: section name to option name to
ordered list of values, plus the list of parsed file paths and the
`allow_no_value` construction flag. -/
structure UnitConfigParser where
  dict : List (String × List (String × List String))
  files : List String
  allow_no_value : Bool
  deriving DecidableEq, Repr

/-- Errors raised by `UnitConfigParser.get`: the explicit
`AttributeError` for a missing section or option, and the
`IndexError` from indexing `[0]` on an empty value list. -/
inductive GetErr where
  | attrError
  | indexError
  deriving DecidableEq, Repr

/-- Model of `UnitConfigParser.set` (lines 90-98): create the section if
missing, append to (or create) the option's value list, and finally
replace the whole list by the empty list when the value is falsy. -/
def UnitConfigParser.set (c : UnitConfigParser) (section_ opt value : String) :
    UnitConfigParser :=
  let sect := (c.dict.lookup section_).getD []
  let vs :=
    match sect.lookup opt with
    | none => [value]
    | some old => old ++ [value]
  let vs := if value = "" then [] else vs
  { c with dict := assocSet section_ (assocSet opt vs sect) c.dict }

/-- Model of `UnitConfigParser.get` (lines 99-120).  With no default and
`allow_no_value` false: a missing section or option raises
`AttributeError`; an option present with an empty value list falls
through every guard and raises `IndexError` from `[0]`. -/
def UnitConfigParser.get (c : UnitConfigParser) (section_ opt : String)
    (default : Option String) (allow_no_value : Bool) :
    Except GetErr (Option String) :=
  let allow := allow_no_value || c.allow_no_value
  match c.dict.lookup section_ with
  | none =>
    match default with
    | some d => .ok (some d)
    | none => if allow then .ok none else .error .attrError
  | some sect =>
    match sect.lookup opt with
    | none =>
      match default with
      | some d => .ok (some d)
      | none => if allow then .ok none else .error .attrError
    | some [] =>
      match default with
      | some d => .ok (some d)
      | none => if allow then .ok none else .error .indexError
    | some (v :: _) => .ok (some v)

/-- The engine's use of `get` with a non-`None` string default, which
can never raise: missing section, missing option and an empty value
list all yield the default, otherwise the first value. -/
def UnitConfigParser.getD (c : UnitConfigParser) (section_ opt default : String) :
    String :=
  match c.dict.lookup section_ with
  | none => default
  | some sect =>
    match sect.lookup opt with
    | none => default
    | some [] => default
    | some (v :: _) => v

/-- The engine's use of `getlist` with a default list (lines 121-137):
missing section or option yields the default, otherwise the stored
list (even when empty). -/
def UnitConfigParser.getlistD (c : UnitConfigParser) (section_ opt : String)
    (default : List String) : List String :=
  match c.dict.lookup section_ with
  | none => default
  | some sect =>
    match sect.lookup opt with
    | none => default
    | some vs => vs

/-- Model of `conf.filename()` (lines 140-144): the last parsed file path. -/
def UnitConfigParser.filename (c : UnitConfigParser) : Option String :=
  c.files.getLast?

/-! ## Filesystem model and PID files (systemctl.py lines 460-492, 608-621) -/

/-- The filesystem as the engine sees it: regular files (path to list
of lines, a line stored without its trailing newline) and the set of
existing directories. -/
structure FS where
  files : List (String × List String)
  dirs : List String
  deriving DecidableEq, Repr

/-- Model of `os.path.isfile`. -/
def FS.isfile (fs : FS) (p : String) : Bool := (fs.files.lookup p).isSome

/-- Model of `os.path.isdir`. -/
def FS.isdir (fs : FS) (p : String) : Bool := fs.dirs.contains p

/-- Model of `write_pid_file` (lines 460-471): a falsy path writes nothing and
returns false; otherwise the parent directory is created if missing
and the file is overwritten with the decimal pid and a newline. -/
def write_pid_file (fs : FS) (pid_file : Option String) (pid : Int) : FS × Bool :=
  match pid_file with
  | none => (fs, false)
  | some pf =>
    if pf = "" then (fs, false)
    else
      let d := dirname (abspath pf)
      let fs1 := if fs.isdir d then fs else { fs with dirs := fs.dirs ++ [d] }
      ({ fs1 with files := assocSet pf [intStr pid] fs1.files }, true)

/-- Model of `read_pid_file` (lines 608-621): a falsy or missing path yields the
default; otherwise the first non-blank line is parsed as an integer,
with a parse failure logged and the default returned. -/
def read_pid_file (fs : FS) (pid_file : Option String) (default : Option Int) :
    Option Int :=
  match pid_file with
  | none => default
  | some pf =>
    if pf = "" then default
    else
      match fs.files.lookup pf with
      | none => default
      | some lines =>
        match lines.find? (fun l => pyStrip l != "") with
        | none => default
        | some l =>
          match pyIntParse (pyStrip l) with
          | some n => some n
          | none => default

/-! ## Process waiting (systemctl.py lines 256-257, 476-489) -/

/-- Model of `_waitprocfile` (line 256). -/
def waitprocfile : Nat := 100

/-- Model of `_waitkillproc` (line 257). -/
def waitkillproc : Nat := 10

/-- The boolean outcome of `pid_exists` for a nonzero pid, with the
oracle `alive` deciding positive pids; negative pids are dead.  The
callers below never pass pid 0 (they test falsiness first), so the
`ValueError` branch of `pid_exists` is unreachable here. -/
def pid_existsB (alive : Int → Bool) (pid : Int) : Bool :=
  if pid < 0 then false else alive pid

/-- The loop of `wait_pid_file` (lines 479-488).  `view t` is the
filesystem as seen at iteration `t` (the code re-reads it every
iteration, and the file may appear while the loop runs).  Returns the
found pid, if any, together with the number of one-second sleeps
performed. -/
def wpf_loop (alive : Int → Bool) (view : Nat → FS) (pid_file dirpath : String) :
    Nat → Nat → Nat → Option Int × Nat
  | _, 0, sleeps => (none, sleeps)
  | x, fuel + 1, sleeps =>
    let fs := view x
    if ¬ fs.isdir dirpath then
      wpf_loop alive view pid_file dirpath (x + 1) fuel (sleeps + 1)
    else
      match read_pid_file fs (some pid_file) none with
      | none => wpf_loop alive view pid_file dirpath (x + 1) fuel sleeps
      | some pid =>
        if pid = 0 then wpf_loop alive view pid_file dirpath (x + 1) fuel sleeps
        else if pid_existsB alive pid then (some pid, sleeps)
        else wpf_loop alive view pid_file dirpath (x + 1) fuel sleeps

/-- Model of `wait_pid_file` (lines 476-489): up to `_waitprocfile` iterations;
an iteration whose parent directory is missing sleeps one second and
retries; otherwise the file is read and the loop continues, without
sleeping, until the file holds a nonzero live pid. -/
def wait_pid_file (alive : Int → Bool) (view : Nat → FS) (pid_file : String) :
    Option Int × Nat :=
  wpf_loop alive view pid_file (dirname (abspath pid_file)) 0 waitprocfile 0

/-! ## Glob matching (model of `fnmatch.fnmatchcase`) -/

/-- Recursive glob matcher for patterns built from literal characters
and the `*` and `?` wildcards; the ignore patterns this program uses
contain only these.  Fuel-driven so the kernel can evaluate it; every
step shrinks the pattern or the string, so combined length suffices. -/
def globMatchFuel : Nat → List Char → List Char → Bool
  | 0, _, _ => false
  | _ + 1, [], [] => true
  | _ + 1, [], _ :: _ => false
  | fuel + 1, '*' :: ps, [] => globMatchFuel fuel ps []
  | fuel + 1, '*' :: ps, c :: cs =>
    globMatchFuel fuel ps (c :: cs) || globMatchFuel fuel ('*' :: ps) cs
  | fuel + 1, '?' :: ps, _ :: cs => globMatchFuel fuel ps cs
  | fuel + 1, p :: ps, c :: cs => (p == c) && globMatchFuel fuel ps cs
  | _ + 1, _ :: _, [] => false

/-- Glob match of a pattern against a character list. -/
def globMatchL (ps cs : List Char) : Bool :=
  globMatchFuel (ps.length + cs.length + 1) ps cs

/-- Model of `fnmatch.fnmatchcase(name, pattern)`. -/
def fnmatchcase (name pat : String) : Bool := globMatchL pat.data name.data

/-! ## Init-mode wants computation (systemctl.py lines 1160-1199) -/

/-- Model of `igno_centos` (line 1160). -/
def igno_centos : List String := ["netconsole", "network"]

/-- Model of `igno_opensuse` (line 1161). -/
def igno_opensuse : List String := ["raw", "pppoe", "*.local", "boot.*", "rpmconf*"]

/-- Model of `igno_ubuntu` (line 1162). -/
def igno_ubuntu : List String := ["mount*", "umount*", "ondemand", "*.local"]

/-- Model of `igno_always` (line 1163). -/
def igno_always : List String := ["network*", "dbus", "systemd-*"]

/-- Lexicographic comparison of character lists by code point, the
order Python `sorted` uses on the byte strings of this program. -/
def strLeB : List Char → List Char → Bool
  | [], _ => true
  | _ :: _, [] => false
  | a :: as, b :: bs =>
    if a.toNat < b.toNat then true
    else if b.toNat < a.toNat then false
    else strLeB as bs

/-- Lexicographic order on strings by code point. -/
def strLe (a b : String) : Prop := strLeB a.data b.data = true

instance : DecidableRel strLe := fun a b =>
  inferInstanceAs (Decidable (strLeB a.data b.data = true))

/-- Python `sorted` on strings: ascending lexicographic sort (a stable
sort; `insertionSort` is stable as well). -/
def sortStrs (l : List String) : List String := l.insertionSort strLe

/-- Model of `re.match(sysv + "\d\d(.*)", unit)`: the prefix `sysv`,
two decimal digits, and the captured remainder. -/
def sysvMatch (sysv : String) (unit : String) : Option String :=
  if sysv.data.isPrefixOf unit.data then
    match unit.data.drop sysv.data.length with
    | d1 :: d2 :: rest =>
      if d1.isDigit && d2.isDigit then some ⟨rest⟩ else none
    | _ => none
  else none

/-- Model of `system_wants_services` (lines 1184-1199), over the directory
listings of the wants folder and the rc3 folder.  The source's inner
loop `for ignore in igno: if fnmatchcase(service, ignore): continue`
intends to skip ignored services, but its `continue` only advances the
inner loop itself, so the `wants_services.append(service)` after it
runs for every rc3 entry that matches the `S\d\d` pattern: the ignore
list filters nothing. -/
def system_wants_services (wants2_listing rc3_listing : List String)
    (sysv : String) : List String :=
  let _igno := igno_centos ++ igno_opensuse ++ igno_ubuntu ++ igno_always
  let ws1 := (sortStrs wants2_listing).filter (fun u => u.endsWith ".service")
  let ws2 := (sortStrs rc3_listing).filterMap (fun unit => sysvMatch sysv unit)
  ws1 ++ ws2

/-! ## Unit matching (systemctl.py lines 398-432) -/

/-- Model of `match_sysd_units` and `match_sysv_units` (lines 409-432)
for one dialect's known unit names: in sorted order, yield every unit
when the pattern list is empty, and otherwise every unit that either
glob-matches some pattern or equals some pattern with the default
suffix appended.  The glob matcher is a parameter standing for
`fnmatch.fnmatchcase`. -/
def match_dialect_units (fnm : String → String → Bool) (known : List String)
    (modules : List String) (suffix : String) : List String :=
  (sortStrs known).filter (fun item =>
    modules.isEmpty
      || modules.any (fun m => fnm item m)
      || modules.any (fun m => m ++ suffix == item))

/-- One step of building the `found` list of `match_units` (lines
401-407): append the unit unless already present. -/
def addUnique (found : List String) (unit : String) : List String :=
  if unit ∈ found then found else found ++ [unit]

/-- Model of `match_units` (lines 398-408): modern matches first, then
legacy matches, duplicates dropped keeping the first occurrence. -/
def match_units (fnm : String → String → Bool) (sysdKnown sysvKnown : List String)
    (modules : List String) (suffix : String) : List String :=
  (match_dialect_units fnm sysdKnown modules suffix
    ++ match_dialect_units fnm sysvKnown modules suffix).foldl addUnique []

/-! ## Environment assembly (systemctl.py lines 493-538, 640-648) -/

/-- Model of the three `re.match` forms applied to one environment
line (lines 504-515 and 525-536): `NAME='VALUE'`, `NAME="VALUE"` and
`NAME=VALUE`, each matching a prefix of the line; the name is a
maximal run of `[\w_]` characters followed by `=`.  A quoted form
needs its closing quote; otherwise the plain form takes the whole
remainder, quote included. -/
def parseEnvLine (line : String) : Option (String × String) :=
  let name := line.data.takeWhile isWordChar
  if name.isEmpty then none
  else
    match line.data.drop name.length with
    | '=' :: rest =>
      let quotedBy (q : Char) : Option String :=
        match rest with
        | q0 :: body =>
          if q0 == q then
            let v := body.takeWhile (fun c => c != q)
            if (body.drop v.length).isEmpty then none else some ⟨v⟩
          else none
        | [] => none
      match quotedBy squote with
      | some v => some (⟨name⟩, v)
      | none =>
        match quotedBy dquote with
        | some v => some (⟨name⟩, v)
        | none => some (⟨name⟩, ⟨rest⟩)
    | _ => none

/-- Shared per-line handling of the environment scanners: strip, skip
blank lines and comments, then try the three match forms. -/
def envLineOf (real_line : String) : Option (String × String) :=
  let line := pyStrip real_line
  if line = "" then none
  else if pyStartsWith line '#' then none
  else parseEnvLine line

/-- Scan the lines of an on-disk environment file. -/
def readEnvLines (fs : FS) (ef : String) : List (String × String) :=
  match fs.files.lookup ef with
  | none => []
  | some lines => lines.filterMap envLineOf

/-- Model of `read_env_file` (lines 493-517): an optional leading `-`
is stripped and makes a missing file yield nothing; without the dash a
missing file raises `IOError` at `open`, which the `except` swallows
after yielding nothing. -/
def read_env_file (fs : FS) (env_file : String) : List (String × String) :=
  if pyStartsWith env_file '-' then
    let ef := pyDropOne env_file
    if fs.isfile ef then readEnvLines fs ef else []
  else readEnvLines fs env_file

/-- Model of `read_env_part` (lines 518-538): one `Environment=` chunk
split on newlines and scanned with the same three forms. -/
def read_env_part (env_part : String) : List (String × String) :=
  (splitOnChar '\n' env_part).filterMap envLineOf

/-- Model of `get_env` (lines 640-648): start from the parent
environment, overlay every `Service.Environment` chunk, then overlay
every `Service.EnvironmentFile`. -/
def get_env (environ : List (String × String)) (fs : FS)
    (conf : UnitConfigParser) : List (String × String) :=
  let env := (conf.getlistD "Service" "Environment" []).foldl
    (fun env part =>
      (read_env_part part).foldl (fun env p => assocSet p.1 p.2 env) env)
    environ
  (conf.getlistD "Service" "EnvironmentFile" []).foldl
    (fun env f =>
      (read_env_file fs f).foldl (fun env p => assocSet p.1 p.2 env) env)
    env

/-! ## Execution engine (systemctl.py lines 231-249, 543-607, 649-825)

The engine's interactions with the outside world are made explicit: the
`World` carries the filesystem, the next pid the kernel will hand out,
the exit code each waited command will return, and the liveness oracle.
Each verb returns the updated world, an ordered trace of the external
actions it performed, and either its Python return value or the
exception it raised.  Commands are spawned with their assembled
environment (`get_env` above); the environment does not influence
control flow, so the trace records the command strings only. -/

/-- A one-character string holding a single quote. -/
def squoteStr : String := ⟨[squote]⟩

/-- The source's `"'%s' start"`-style quoting of the unit file path. -/
def quoted (s : String) : String := squoteStr ++ s ++ squoteStr

/-- Model of Python `str.lower`. -/
def pyLower (s : String) : String := ⟨s.data.map Char.toLower⟩

/-- The world outside the engine: the filesystem, pid allocation, the
exit code of each waited command, the process liveness oracle, and the
parent environment. -/
structure World where
  fs : FS
  nextPid : Int
  rc : String → Int
  alive : Int → Bool
  environ : List (String × String)

/-- One externally observable action of the engine. -/
inductive Step where
  | spawnWait (cmd : String)
  | spawnNoWait (cmd : String)
  | waitChild (cmd : String)
  | waitPidFile (path : Option String)
  | killSig (pid : Int) (sig : Nat)
  | sleep (secs : Nat)
  | removeFile (path : String)
  deriving DecidableEq, Repr

/-- The exceptions the embedded verbs raise. -/
inductive EngineErr where
  | commandFailed (hook cmd : String)
  | unsupportedType (runs : String)
  | unitNotFound (module_ : String)
  deriving DecidableEq, Repr

/-- Result of running a verb: final world, trace of external actions
(the actions performed before an exception are kept), and the Python
return value or the exception. -/
structure EngineOut (α : Type) where
  w : World
  trace : List Step
  res : Except EngineErr α

instance {ε α : Type} [DecidableEq ε] [DecidableEq α] :
    DecidableEq (Except ε α) := fun
  | .error e, .error e' =>
    decidable_of_iff (e = e') (by constructor <;> (intro h; simp_all))
  | .error _, .ok _ => isFalse (by intro h; exact Except.noConfusion h)
  | .ok _, .error _ => isFalse (by intro h; exact Except.noConfusion h)
  | .ok a, .ok a' =>
    decidable_of_iff (a = a') (by constructor <;> (intro h; simp_all))

/-- Model of `sudo_from` (lines 543-554): the runuser prefix derived
from `Service.User` and `Service.Group`. -/
def sudo_from (conf : UnitConfigParser) : String :=
  let runuser := conf.getD "Service" "User" ""
  let rungroup := conf.getD "Service" "Group" ""
  if runuser ≠ "" ∧ rungroup ≠ "" then
    "/usr/sbin/runuser -g " ++ rungroup ++ " -u " ++ runuser ++ " -- "
  else if runuser ≠ "" then "/usr/sbin/runuser -u " ++ runuser ++ " -- "
  else if rungroup ≠ "" then "/usr/sbin/runuser -g " ++ rungroup ++ " -- "
  else ""

/-- Model of `default_pid_file` (lines 490-492). -/
def default_pid_file (unit : String) : String := "/var/run/" ++ unit ++ ".pid"

/-- Model of `get_pid_file_from` (lines 829-835) with its only used
default, `None`: no parsed file means no pid file; otherwise
`Service.PIDFile` or the default path for the unit basename. -/
def get_pid_file_from (conf : UnitConfigParser) : Option String :=
  match conf.filename with
  | none => none
  | some f => some (conf.getD "Service" "PIDFile" (default_pid_file (basename f)))

/-- Boolean liveness of an optional pid, as `self.pid_exists` reports
it on the values `read_pid_file` produces.  (A pid file containing `0`
would raise `ValueError` in the source; the claims never reach that
edge and it is modelled as dead here.) -/
def pid_existsOpt (alive : Int → Bool) (pid : Option Int) : Bool :=
  match pid with
  | none => false
  | some p => pid_existsB alive p

/-- Model of `active_pid_from` (lines 907-915). -/
def active_pid_from (w : World) (conf : UnitConfigParser) : Option Int :=
  let pid := read_pid_file w.fs (get_pid_file_from conf) none
  if pid_existsOpt w.alive pid then pid else none

/-- Model of `is_active_from` (lines 916-920). -/
def is_active_from (w : World) (conf : UnitConfigParser) : Bool :=
  (active_pid_from w conf).isSome

/-- Model of a hook-command loop (`ExecStartPre` and friends, e.g.
lines 571-574): each command is run through `checkstatus` and
`subprocess_wait(cmd, env, check=check)`, which raises on a non-zero
exit when the check flag is set.  External commands do not mutate the
modelled filesystem. -/
def run_hook_list (w : World) (hook : String) : List String → EngineOut Unit
  | [] => ⟨w, [], .ok ()⟩
  | cmd :: rest =>
    let pr := checkstatus cmd
    let step := Step.spawnWait pr.2
    if pr.1 && (w.rc pr.2 != 0) then
      ⟨w, [step], .error (.commandFailed hook pr.2)⟩
    else
      let o := run_hook_list w hook rest
      ⟨o.w, step :: o.trace, o.res⟩

/-- Model of the SIGTERM half of `kill_pid` (lines 625-631) under the
static liveness oracle: send TERM, break if gone, sleep, break if
gone, else repeat.  A signal to an already-dead pid is modelled as the
recorded signal rather than the `OSError` the source would raise; the
kill paths of the claims only reach this with no pid at all. -/
def kill_term_loop (alive : Int → Bool) (pid : Int) : Nat → List Step
  | 0 => []
  | fuel + 1 =>
    Step.killSig pid 15 ::
      (if ¬ pid_existsB alive pid then []
       else Step.sleep 1 ::
         (if ¬ pid_existsB alive pid then [] else kill_term_loop alive pid fuel))

/-- Model of the SIGKILL half of `kill_pid` (lines 632-636). -/
def kill_kill_loop (alive : Int → Bool) (pid : Int) : Nat → List Step
  | 0 => []
  | fuel + 1 =>
    if ¬ pid_existsB alive pid then []
    else Step.killSig pid 9 :: Step.sleep 1 :: kill_kill_loop alive pid fuel

/-- Model of `kill_pid` (lines 622-636): a falsy pid does nothing. -/
def kill_pid (alive : Int → Bool) (pid : Option Int) : List Step :=
  match pid with
  | none => []
  | some p =>
    if p = 0 then []
    else kill_term_loop alive p waitkillproc ++ kill_kill_loop alive p waitkillproc

/-- Remove a file. -/
def FS.remove (fs : FS) (p : String) : FS :=
  { fs with files := fs.files.filter (fun kv => kv.1 != p) }

/-- Model of the spawn-without-wait loops of the simple/notify/oneshot
branches (start lines 582-590, stop lines 683-691, restart lines
800-808): spawn each command with the runuser prefix, record the child
pid to the pid file only in the start branch (`record_pid`; the stop
and restart loops have that write commented out), and wait for the
child only for `oneshot`. -/
def spawn_nowait_loop (conf : UnitConfigParser) (sudoPre : String)
    (oneshot record_pid : Bool) : World → List String → World × List Step
  | w, [] => (w, [])
  | w, cmd :: rest =>
    let pid := w.nextPid
    let w1 := { w with nextPid := pid + 1 }
    let w2 :=
      if record_pid then
        { w1 with fs := (write_pid_file w1.fs (get_pid_file_from conf) pid).1 }
      else w1
    let steps := Step.spawnNoWait (sudoPre ++ cmd) ::
      (if oneshot then [Step.waitChild (sudoPre ++ cmd)] else [])
    let o := spawn_nowait_loop conf sudoPre oneshot record_pid w2 rest
    (o.1, steps ++ o.2)

/-- Model of the forking-branch loops of start (lines 591-598) and
restart (lines 809-816): wait for each command, honor the check flag,
then wait for the pid file. -/
def wait_check_loop (conf : UnitConfigParser) (sudoPre hook : String) :
    World → List String → EngineOut Unit
  | w, [] => ⟨w, [], .ok ()⟩
  | w, cmd :: rest =>
    let pr := checkstatus cmd
    let step := Step.spawnWait (sudoPre ++ pr.2)
    if pr.1 && (w.rc (sudoPre ++ pr.2) != 0) then
      ⟨w, [step], .error (.commandFailed hook (sudoPre ++ pr.2))⟩
    else
      let o := wait_check_loop conf sudoPre hook w rest
      ⟨o.w, step :: Step.waitPidFile (get_pid_file_from conf) :: o.trace, o.res⟩

/-- Model of the forking branch of stop (lines 692-705): as the
forking start loop, but the check flag is honored only when the unit
is currently active. -/
def stop_forking_loop (conf : UnitConfigParser) (sudoPre : String) :
    World → List String → EngineOut Unit
  | w, [] => ⟨w, [], .ok ()⟩
  | w, cmd :: rest =>
    let active := is_active_from w conf
    let pr := checkstatus cmd
    let step := Step.spawnWait (sudoPre ++ pr.2)
    if active && pr.1 && (w.rc (sudoPre ++ pr.2) != 0) then
      ⟨w, [step], .error (.commandFailed "ExecStop" (sudoPre ++ pr.2))⟩
    else
      let o := stop_forking_loop conf sudoPre w rest
      ⟨o.w, step :: Step.waitPidFile (get_pid_file_from conf) :: o.trace, o.res⟩

/-- Model of `start_unit_from` (lines 564-607): pre-hooks, the
type-dispatched primary action, post-hooks, and the return value
`True`. -/
def start_unit_from (w : World) (conf : UnitConfigParser) : EngineOut Bool :=
  let runs := pyLower (conf.getD "Service" "Type" "simple")
  let sudoPre := sudo_from conf
  let pre := run_hook_list w "ExecStartPre" (conf.getlistD "Service" "ExecStartPre" [])
  match pre.res with
  | .error e => ⟨pre.w, pre.trace, .error e⟩
  | .ok _ =>
    let main : EngineOut Unit :=
      if runs == "sysv" then
        ⟨pre.w, [Step.spawnWait (quoted ((conf.filename).getD "") ++ " start")], .ok ()⟩
      else if runs == "simple" || runs == "oneshot" || runs == "notify" then
        let r := spawn_nowait_loop conf sudoPre (runs == "oneshot") true pre.w
          (conf.getlistD "Service" "ExecStart" [])
        ⟨r.1, r.2, .ok ()⟩
      else if runs == "forking" then
        wait_check_loop conf sudoPre "ExecStart" pre.w
          (conf.getlistD "Service" "ExecStart" [])
      else ⟨pre.w, [], .error (.unsupportedType runs)⟩
    match main.res with
    | .error e => ⟨main.w, pre.trace ++ main.trace, .error e⟩
    | .ok _ =>
      let post := run_hook_list main.w "ExecStartPost"
        (conf.getlistD "Service" "ExecStartPost" [])
      ⟨post.w, pre.trace ++ main.trace ++ post.trace,
        match post.res with
        | .error e => .error e
        | .ok _ => .ok true⟩

/-- Model of `stop_unit_from` (lines 658-714): pre-hooks, then the
sysv branch, else the kill branch when `ExecStop` is empty, else the
type-dispatched `ExecStop` loops, then post-hooks and `True`. -/
def stop_unit_from (w : World) (conf : UnitConfigParser) : EngineOut Bool :=
  let runs := pyLower (conf.getD "Service" "Type" "simple")
  let sudoPre := sudo_from conf
  let pre := run_hook_list w "ExecStopPre" (conf.getlistD "Service" "ExecStopPre" [])
  match pre.res with
  | .error e => ⟨pre.w, pre.trace, .error e⟩
  | .ok _ =>
    let main : EngineOut Unit :=
      if runs == "sysv" then
        ⟨pre.w, [Step.spawnWait (quoted ((conf.filename).getD "") ++ " stop")], .ok ()⟩
      else if (conf.getlistD "Service" "ExecStop" []).isEmpty then
        let pid_file := get_pid_file_from conf
        let pid := read_pid_file pre.w.fs pid_file none
        let ksteps := kill_pid pre.w.alive pid
        match pid_file with
        | some pf =>
          if pre.w.fs.isfile pf then
            ⟨{ pre.w with fs := pre.w.fs.remove pf },
              ksteps ++ [Step.removeFile pf], .ok ()⟩
          else ⟨pre.w, ksteps, .ok ()⟩
        | none => ⟨pre.w, ksteps, .ok ()⟩
      else if runs == "simple" || runs == "oneshot" || runs == "notify" then
        let r := spawn_nowait_loop conf sudoPre (runs == "oneshot") false pre.w
          (conf.getlistD "Service" "ExecStop" [])
        ⟨r.1, r.2, .ok ()⟩
      else if runs == "forking" then
        stop_forking_loop conf sudoPre pre.w (conf.getlistD "Service" "ExecStop" [])
      else ⟨pre.w, [], .error (.unsupportedType runs)⟩
    match main.res with
    | .error e => ⟨main.w, pre.trace ++ main.trace, .error e⟩
    | .ok _ =>
      let post := run_hook_list main.w "ExecStopPost"
        (conf.getlistD "Service" "ExecStopPost" [])
      ⟨post.w, pre.trace ++ main.trace ++ post.trace,
        match post.res with
        | .error e => .error e
        | .ok _ => .ok true⟩

/-- Model of `restart_unit_from` (lines 779-825): pre-hooks, then the
sysv branch; otherwise the dispatch tests the list stored under the
misspelled option name `ExceRestart` (line 796, exactly as in the
source), which no descriptor sets, so the stop-then-start branch runs
whenever the type is not sysv; the `ExecRestart` loops follow only if
that misspelled list is non-empty; then post-hooks and `True`. -/
def restart_unit_from (w : World) (conf : UnitConfigParser) : EngineOut Bool :=
  let runs := pyLower (conf.getD "Service" "Type" "simple")
  let sudoPre := sudo_from conf
  let pre := run_hook_list w "ExecRestartPre"
    (conf.getlistD "Service" "ExecRestartPre" [])
  match pre.res with
  | .error e => ⟨pre.w, pre.trace, .error e⟩
  | .ok _ =>
    let main : EngineOut Unit :=
      if runs == "sysv" then
        ⟨pre.w, [Step.spawnWait (quoted ((conf.filename).getD "") ++ " restart")], .ok ()⟩
      else if (conf.getlistD "Service" "ExceRestart" []).isEmpty then
        let o1 := stop_unit_from pre.w conf
        match o1.res with
        | .error e => ⟨o1.w, o1.trace, .error e⟩
        | .ok _ =>
          let o2 := start_unit_from o1.w conf
          ⟨o2.w, o1.trace ++ o2.trace,
            match o2.res with
            | .error e => .error e
            | .ok _ => .ok ()⟩
      else if runs == "simple" || runs == "oneshot" || runs == "notify" then
        let r := spawn_nowait_loop conf sudoPre (runs == "oneshot") false pre.w
          (conf.getlistD "Service" "ExecRestart" [])
        ⟨r.1, r.2, .ok ()⟩
      else if runs == "forking" then
        wait_check_loop conf sudoPre "ExecRestart" pre.w
          (conf.getlistD "Service" "ExecRestart" [])
      else ⟨pre.w, [], .error (.unsupportedType runs)⟩
    match main.res with
    | .error e => ⟨main.w, pre.trace ++ main.trace, .error e⟩
    | .ok _ =>
      let post := run_hook_list main.w "ExecRestartPost"
        (conf.getlistD "Service" "ExecRestartPost" [])
      ⟨post.w, pre.trace ++ main.trace ++ post.trace,
        match post.res with
        | .error e => .error e
        | .ok _ => .ok true⟩

/-! ## Unit catalog and batch start (systemctl.py lines 278-348, 555-563) -/

/-- The scanned unit catalogs: the modern and legacy name-to-path
maps, and the parsed descriptor for each path (standing for
`read_sysd_file` and `read_sysv_file` applied to the file found
there). -/
structure Catalog where
  sysd : List (String × String)
  sysv : List (String × String)
  parseSysd : String → UnitConfigParser
  parseSysv : String → UnitConfigParser

/-- Model of `unit_sysd_file` (lines 297-304): the name as given, then
with the `.service` suffix. -/
def unit_sysd_file (cat : Catalog) (module_ : String) : Option String :=
  match cat.sysd.lookup module_ with
  | some p => some p
  | none => cat.sysd.lookup (module_ ++ ".service")

/-- Model of `unit_sysv_file` (lines 317-324). -/
def unit_sysv_file (cat : Catalog) (module_ : String) : Option String :=
  match cat.sysv.lookup module_ with
  | some p => some p
  | none => cat.sysv.lookup (module_ ++ ".service")

/-- Model of `read_unit` (lines 339-348): modern first, then legacy,
else the `unit file not found` exception. -/
def read_unit (cat : Catalog) (module_ : String) :
    Except EngineErr UnitConfigParser :=
  match unit_sysd_file cat module_ with
  | some p => .ok (cat.parseSysd p)
  | none =>
    match unit_sysv_file cat module_ with
    | some p => .ok (cat.parseSysv p)
    | none => .error (.unitNotFound module_)

/-- Model of `start_unit` (lines 561-563): read the unit (the read may
raise), then start from its descriptor. -/
def start_unit (cat : Catalog) (w : World) (unit : String) : EngineOut Bool :=
  match read_unit cat unit with
  | .error e => ⟨w, [], .error e⟩
  | .ok conf => start_unit_from w conf

/-- The loop of `start_of_units` (lines 555-560): a falsy per-unit
result degrades `done`; an exception aborts the whole loop. -/
def start_units_loop (cat : Catalog) : World → List String → Bool → EngineOut Bool
  | w, [], done => ⟨w, [], .ok done⟩
  | w, u :: rest, done =>
    let o := start_unit cat w u
    match o.res with
    | .error e => ⟨o.w, o.trace, .error e⟩
    | .ok b =>
      let o2 := start_units_loop cat o.w rest (if b then done else false)
      ⟨o2.w, o.trace ++ o2.trace, o2.res⟩

/-- Model of `start_of_units` (lines 555-560): match the patterns
against both catalogs, then start each matched unit in order. -/
def start_of_units (fnm : String → String → Bool) (cat : Catalog) (w : World)
    (modules : List String) : EngineOut Bool :=
  start_units_loop cat w
    (match_units fnm (cat.sysd.map Prod.fst) (cat.sysv.map Prod.fst)
      modules ".service")
    true

/-! ## Concrete fixtures used by the claim evaluations -/

/-- A simple-type descriptor that also declares `ExecRestart`. -/
def demoConf : UnitConfigParser :=
  ⟨[("Service", [("Type", ["simple"]), ("ExecStart", ["/bin/run"]),
      ("ExecRestart", ["/bin/c"])])],
   ["/etc/systemd/system/demo.service"], false⟩

/-- A quiet world: empty filesystem, every waited command exits 0,
no process is alive. -/
def demoWorld : World := ⟨⟨[], []⟩, 1000, fun _ => 0, fun _ => false, []⟩

/-- A descriptor whose `ExecStartPre` command fails. -/
def failConf : UnitConfigParser :=
  ⟨[("Service", [("Type", ["simple"]), ("ExecStartPre", ["/bin/boom"]),
      ("ExecStart", ["/bin/run1"])])],
   ["/etc/systemd/system/u1.service"], false⟩

/-- A descriptor that starts normally. -/
def okConf : UnitConfigParser :=
  ⟨[("Service", [("Type", ["simple"]), ("ExecStart", ["/bin/run2"])])],
   ["/etc/systemd/system/u2.service"], false⟩

/-- A catalog holding the two units above. -/
def twoUnitCat : Catalog :=
  ⟨[("u1.service", "/p1"), ("u2.service", "/p2")], [],
   fun p => if p = "/p1" then failConf else okConf,
   fun _ => ⟨[], [], false⟩⟩

/-- A world in which `/bin/boom` exits 1 and everything else exits 0. -/
def boomWorld : World :=
  ⟨⟨[], []⟩, 1000, fun c => if c = "/bin/boom" then 1 else 0, fun _ => false, []⟩

/-- An empty catalog. -/
def emptyCat : Catalog := ⟨[], [], fun _ => ⟨[], [], false⟩, fun _ => ⟨[], [], false⟩⟩

end SystemctlPy

namespace SystemctlPy

/-! ## Theorems for C5, C6, C10 -/

/-- C5: for every command string `c`, `checkstatus` returns the check
flag true exactly when `c` does not begin with `-`, and the stripped
command is `c` with a single leading `-` removed when present and `c`
unchanged otherwise. -/
theorem checkstatus_spec (c : String) :
    ((checkstatus c).1 = true ↔ c.data.head? ≠ some '-') ∧
    (checkstatus c).2.data =
      (match c.data with
       | '-' :: rest => rest
       | l => l) := by
  unfold checkstatus pyStartsWith pyDropOne
  cases h : c.data with
  | nil => simp [h]
  | cons x xs =>
    by_cases hx : x = '-'
    · subst hx
      simp [h]
    · simp [h, hx, beq_iff_eq]

/-- C6: for a positive pid, `pid_exists` is true when signal zero
succeeds or fails with `EPERM`, false when it fails with `ESRCH`, and
re-raises any other signal error. -/
theorem pid_exists_spec (kill0 : Int → KillRes) (p : Int) (hp : 0 < p) :
    (kill0 p = .ok → pid_exists kill0 (some p) = .ok true) ∧
    (kill0 p = .eperm → pid_exists kill0 (some p) = .ok true) ∧
    (kill0 p = .esrch → pid_exists kill0 (some p) = .ok false) ∧
    (∀ e, kill0 p = e → e ≠ .ok → e ≠ .eperm → e ≠ .esrch →
      pid_exists kill0 (some p) = .error (.osError e)) := by
  have h1 : ¬ p < 0 := by omega
  have h2 : p ≠ 0 := by omega
  refine ⟨?_, ?_, ?_, ?_⟩ <;>
    first
    | (intro h; simp [pid_exists, h1, h2, h])
    | (intro e he hok hperm hsrch
       cases e <;> simp_all [pid_exists, h1, h2])

/-- Witness for C6 at pid 3 with an `EPERM`-returning probe. -/
theorem pid_exists_spec_witness :
    0 < (3 : Int) ∧
    pid_exists (fun _ => KillRes.eperm) (some 3) = .ok true :=
  ⟨by decide, (pid_exists_spec (fun _ => KillRes.eperm) 3 (by decide)).2.1 rfl⟩

/-- Looking up the key just stored by `assocSet` yields the stored value. -/
theorem lookup_assocSet_self {α β : Type} [DecidableEq α] (k : α) (v : β)
    (l : List (α × β)) : (assocSet k v l).lookup k = some v := by
  induction l with
  | nil => simp [assocSet]
  | cons p rest ih =>
    obtain ⟨k', v'⟩ := p
    by_cases h : k' = k
    · subst h
      simp [assocSet]
    · have hne : (k == k') = false := by
        simp only [beq_eq_false_iff_ne, ne_eq]
        exact fun e => h e.symm
      simp [assocSet, h, List.lookup, ih, hne]

/-- C10: in a descriptor where an option was last set with an empty
value (stored as the empty list), the single-valued getter with no
default and `allow_no_value` false raises `IndexError` from indexing
the empty list, not the missing-option `AttributeError`; an option
never set at all raises `AttributeError`. -/
theorem ucp_empty_reset_get (d : UnitConfigParser) (s o : String)
    (hallow : d.allow_no_value = false) :
    (UnitConfigParser.get (UnitConfigParser.set d s o "") s o none false
        = .error .indexError) ∧
    (∀ o', ((d.dict.lookup s).getD []).lookup o' = none →
        UnitConfigParser.get d s o' none false = .error .attrError) := by
  constructor
  · unfold UnitConfigParser.set UnitConfigParser.get
    simp [hallow, lookup_assocSet_self]
  · intro o' h
    unfold UnitConfigParser.get
    cases hs : d.dict.lookup s with
    | none => simp [hs, hallow]
    | some sect =>
      have hnone : sect.lookup o' = none := by simpa [hs] using h
      simp [hs, hnone, hallow]

/-- Witness for C10 on the empty parser with a `Service.ExecStart`
reset and a never-set option. -/
theorem ucp_empty_reset_get_witness :
    (UnitConfigParser.mk [] [] false).allow_no_value = false ∧
    UnitConfigParser.get
        (UnitConfigParser.set ⟨[], [], false⟩ "Service" "ExecStart" "")
        "Service" "ExecStart" none false = .error .indexError :=
  ⟨rfl, (ucp_empty_reset_get ⟨[], [], false⟩ "Service" "ExecStart" rfl).1⟩

/-- Every character produced by `natCharsAux` is a digit character. -/
theorem natCharsAux_mem (fuel : Nat) :
    ∀ n c, c ∈ natCharsAux fuel n → ∃ d, d < 10 ∧ c = digitChar d := by
  induction fuel with
  | zero => intro n c hc; simp [natCharsAux] at hc
  | succ fuel ih =>
    intro n c hc
    by_cases hn : n = 0
    · simp [natCharsAux, hn] at hc
    · simp only [natCharsAux, hn, if_false, List.mem_append,
        List.mem_singleton] at hc
      rcases hc with hc | hc
      · exact ih _ c hc
      · exact ⟨n % 10, Nat.mod_lt _ (by norm_num), hc⟩

/-- Numeric value of a digit character. -/
theorem digitChar_toNat (d : Nat) (h : d < 10) : (digitChar d).toNat = 48 + d := by
  interval_cases d <;> decide

/-- Digit characters satisfy `isDigit`. -/
theorem digitChar_isDigit (d : Nat) (h : d < 10) : (digitChar d).isDigit = true := by
  interval_cases d <;> decide

/-- Digit characters are not whitespace. -/
theorem digitChar_not_ws (d : Nat) (h : d < 10) :
    (digitChar d).isWhitespace = false := by
  interval_cases d <;> decide

/-- Digit characters are neither a minus nor a plus sign. -/
theorem digitChar_not_sign (d : Nat) (h : d < 10) :
    (digitChar d == '-') = false ∧ (digitChar d == '+') = false := by
  interval_cases d <;> decide

/-- On all-digit input the accumulating parse succeeds with the
folded value. -/
theorem parseDigitsAux_eq_val (l : List Char) :
    ∀ acc, (∀ c ∈ l, c.isDigit = true) →
      parseDigitsAux acc l = some (digitsVal acc l) := by
  induction l with
  | nil => intro acc _; rfl
  | cons c cs ih =>
    intro acc h
    have hc := h c (by simp)
    simp only [parseDigitsAux, hc, if_true]
    have : digitsVal acc (c :: cs) = digitsVal (acc * 10 + (c.toNat - 48)) cs := rfl
    rw [this]
    exact ih _ (fun x hx => h x (by simp [hx]))

/-- Folding the digit characters of `n` onto `acc` recovers `n` in the
low digits. -/
theorem digitsVal_natCharsAux (fuel : Nat) :
    ∀ n acc, n ≤ fuel →
      digitsVal acc (natCharsAux fuel n)
        = acc * 10 ^ (natCharsAux fuel n).length + n := by
  induction fuel with
  | zero =>
    intro n acc h
    have hn : n = 0 := Nat.le_zero.mp h
    subst hn
    simp [natCharsAux, digitsVal]
  | succ fuel ih =>
    intro n acc h
    by_cases hn : n = 0
    · subst hn; simp [natCharsAux, digitsVal]
    · have hdiv : n / 10 ≤ fuel := by
        have h1 : n / 10 < n := Nat.div_lt_self (Nat.pos_of_ne_zero hn) (by norm_num)
        omega
      have happ : digitsVal acc (natCharsAux fuel (n / 10) ++ [digitChar (n % 10)])
          = digitsVal acc (natCharsAux fuel (n / 10)) * 10
            + ((digitChar (n % 10)).toNat - 48) := by
        simp [digitsVal, List.foldl_append]
      have hkey : (digitChar (n % 10)).toNat - 48 = n % 10 := by
        rw [digitChar_toNat _ (Nat.mod_lt _ (by norm_num))]
        omega
      simp only [natCharsAux, hn, if_false]
      rw [happ, ih _ acc hdiv, hkey, List.length_append, List.length_singleton,
        pow_succ, ← mul_assoc]
      omega

/-- The printed form of a natural number is never empty. -/
theorem natChars_ne_nil (n : Nat) : natChars n ≠ [] := by
  unfold natChars
  by_cases hn : n = 0
  · simp [hn]
  · simp only [hn, if_false]
    cases n with
    | zero => exact absurd rfl hn
    | succ m =>
      simp only [natCharsAux, hn, if_false]
      intro h
      exact absurd (List.append_eq_nil.mp h).2 (by simp)

/-- Characters of `natChars n` are digit characters. -/
theorem natChars_mem (n : Nat) :
    ∀ c ∈ natChars n, ∃ d, d < 10 ∧ c = digitChar d := by
  intro c hc
  unfold natChars at hc
  by_cases hn : n = 0
  · simp [hn] at hc
    exact ⟨0, by norm_num, hc⟩
  · simp only [hn, if_false] at hc
    exact natCharsAux_mem n n c hc

/-- Parsing the printed digits of a positive `n` recovers `n`. -/
theorem parseDigits_natChars (n : Nat) (h : 0 < n) :
    parseDigits (natChars n) = some n := by
  have hne := natChars_ne_nil n
  have hdig : ∀ c ∈ natChars n, c.isDigit = true := by
    intro c hc
    obtain ⟨d, hd, rfl⟩ := natChars_mem n c hc
    exact digitChar_isDigit d hd
  have hstep : parseDigits (natChars n) = parseDigitsAux 0 (natChars n) := by
    cases hl : natChars n with
    | nil => exact absurd hl hne
    | cons c cs => rfl
  rw [hstep, parseDigitsAux_eq_val _ _ hdig]
  have hn : n ≠ 0 := Nat.pos_iff_ne_zero.mp h
  unfold natChars
  simp only [hn, if_false]
  rw [digitsVal_natCharsAux n n 0 le_rfl]
  simp

/-- Parsing the printed form of a positive `n` as a Python integer
recovers `n`. -/
theorem pyIntParseL_natChars (n : Nat) (h : 0 < n) :
    pyIntParseL (natChars n) = some (n : Int) := by
  cases hl : natChars n with
  | nil => exact absurd hl (natChars_ne_nil n)
  | cons c cs =>
    obtain ⟨d, hd, hcd⟩ := natChars_mem n c (hl ▸ by simp)
    have h1 := (digitChar_not_sign d hd).1
    have h2 := (digitChar_not_sign d hd).2
    subst hcd
    simp only [pyIntParseL, h1, h2, if_false]
    rw [← hl, parseDigits_natChars n h]
    rfl

/-- dropWhile is the identity when no element satisfies the predicate. -/
theorem dropWhile_eq_self_of_all (p : Char → Bool) (l : List Char)
    (h : ∀ c ∈ l, p c = false) : l.dropWhile p = l := by
  cases l with
  | nil => rfl
  | cons c cs => simp [List.dropWhile, h c (by simp)]

/-- Stripping does nothing to a whitespace-free character list. -/
theorem pyStripL_of_no_ws (l : List Char)
    (h : ∀ c ∈ l, c.isWhitespace = false) : pyStripL l = l := by
  unfold pyStripL
  rw [dropWhile_eq_self_of_all _ _ h,
    dropWhile_eq_self_of_all _ _ (fun c hc => h c (List.mem_reverse.mp hc)),
    List.reverse_reverse]

/-- C7: for a positive pid and a non-empty path, `write_pid_file`
reports success, creates the parent directory, and a subsequent
`read_pid_file` parses the written decimal line back to the pid. -/
theorem pid_roundtrip (fs : FS) (pf : String) (N : Int)
    (hpf : pf ≠ "") (hN : 0 < N) :
    ((write_pid_file fs (some pf) N).2 = true) ∧
    (dirname (abspath pf) ∈ (write_pid_file fs (some pf) N).1.dirs) ∧
    (read_pid_file (write_pid_file fs (some pf) N).1 (some pf) none = some N) := by
  have hneg : ¬ N < 0 := by omega
  have hstr : intStr N = ⟨natChars N.natAbs⟩ := by
    unfold intStr
    simp [hneg]
  have hpos : 0 < N.natAbs := by omega
  have hnows : ∀ c ∈ natChars N.natAbs, c.isWhitespace = false := by
    intro c hc
    obtain ⟨d, hd, rfl⟩ := natChars_mem _ c hc
    exact digitChar_not_ws d hd
  have hstrip : pyStrip (intStr N) = intStr N := by
    rw [hstr]
    show (⟨pyStripL (natChars N.natAbs)⟩ : String) = _
    rw [pyStripL_of_no_ws _ hnows]
  have hnonempty : (pyStrip (intStr N) != "") = true := by
    rw [hstrip, hstr]
    simp only [bne_iff_ne, ne_eq]
    intro hcontr
    exact natChars_ne_nil N.natAbs (by
      have : (⟨natChars N.natAbs⟩ : String).data = ("" : String).data := by rw [hcontr]
      simpa using this)
  have hparse : pyIntParse (pyStrip (intStr N)) = some N := by
    rw [hstrip, hstr]
    show pyIntParseL (natChars N.natAbs) = some N
    rw [pyIntParseL_natChars _ hpos]
    congr 1
    omega
  refine ⟨?_, ?_, ?_⟩
  · simp [write_pid_file, hpf]
  · simp only [write_pid_file, hpf, if_false]
    by_cases hd : fs.isdir (dirname (abspath pf))
    · simp only [hd, if_true]
      simpa [FS.isdir] using hd
    · simp [hd]
  · simp only [write_pid_file, read_pid_file, hpf, if_false]
    rw [lookup_assocSet_self]
    simp only [List.find?, hnonempty]
    rw [hparse]

/-- Witness for C7: writing pid 3 to `/var/run/demo.service.pid` on an
empty filesystem and reading it back yields 3. -/
theorem pid_roundtrip_witness :
    ("/var/run/demo.service.pid" ≠ "") ∧ (0 < (3 : Int)) ∧
    read_pid_file (write_pid_file ⟨[], []⟩ (some "/var/run/demo.service.pid") 3).1
      (some "/var/run/demo.service.pid") none = some 3 :=
  ⟨by decide, by decide,
    (pid_roundtrip ⟨[], []⟩ "/var/run/demo.service.pid" 3 (by decide) (by decide)).2.2⟩

/-- C4 (code bug): with the parent directory `/run` present at every
iteration and the PID file never appearing, `wait_pid_file` runs its
100 iterations without a single one-second sleep and returns `None`
immediately — the `sleep(1)` sits only in the missing-directory
branch, so contrary to the claim the iterations do not each sleep one
second and a forking start does not wait up to 100 seconds. -/
theorem wait_pid_file_busy_poll :
    wait_pid_file (fun _ => true) (fun _ => ⟨[], ["/run"]⟩) "/run/demo.pid"
      = (none, 0) := by
  decide

/-- C3 (code bug): the rc3 entry `S50dbus` derives service name `dbus`,
which glob-matches the ignore pattern `dbus` of the always-on set, yet
`system_wants_services` still returns it: the `continue` in the ignore
loop only advances the inner loop, so the ignore list excludes
nothing. -/
theorem system_wants_services_ignores_nothing :
    system_wants_services [] ["S50dbus"] "S" = ["dbus"] ∧
    (∃ pat ∈ igno_centos ++ igno_opensuse ++ igno_ubuntu ++ igno_always,
      fnmatchcase "dbus" pat = true) := by
  constructor
  · decide
  · exact ⟨"dbus", by decide, by decide⟩

/-- C8: an `EnvironmentFile` entry with a leading `-` whose file does
not exist contributes nothing and causes no failure, and the assembled
environment of a descriptor with `Environment=A=1` (newline) `B=2` and
an `EnvironmentFile` naming the dash-prefixed missing path `/missing`
contains `A=1` and `B=2`. -/
theorem get_env_missing_file_tolerated :
    (∀ (fs : FS) (ef : String), pyStartsWith ef '-' = true →
      fs.isfile (pyDropOne ef) = false → read_env_file fs ef = []) ∧
    ((get_env [] ⟨[], []⟩
        ⟨[("Service", [("Environment", ["A=1\nB=2"]),
                       ("EnvironmentFile", ["-/missing"])])],
         ["/etc/systemd/system/demo.service"], false⟩).lookup "A" = some "1" ∧
     (get_env [] ⟨[], []⟩
        ⟨[("Service", [("Environment", ["A=1\nB=2"]),
                       ("EnvironmentFile", ["-/missing"])])],
         ["/etc/systemd/system/demo.service"], false⟩).lookup "B" = some "2") := by
  refine ⟨?_, by decide, by decide⟩
  intro fs ef h1 h2
  simp [read_env_file, h1, h2]

/-- Witness for C8: the dash-prefixed `/missing` entry on an empty
filesystem starts with a dash, is missing, and yields nothing. -/
theorem get_env_missing_file_tolerated_witness :
    pyStartsWith "-/missing" '-' = true ∧
    FS.isfile ⟨[], []⟩ (pyDropOne "-/missing") = false ∧
    read_env_file ⟨[], []⟩ "-/missing" = [] :=
  ⟨by decide, by decide,
    get_env_missing_file_tolerated.1 ⟨[], []⟩ "-/missing" (by decide) (by decide)⟩

/-- Totality of the lexicographic comparison. -/
theorem strLeB_total (a : List Char) : ∀ b, strLeB a b = true ∨ strLeB b a = true := by
  induction a with
  | nil => intro b; left; rfl
  | cons x xs ih =>
    intro b
    cases b with
    | nil => right; rfl
    | cons y ys =>
      by_cases h1 : x.toNat < y.toNat
      · left; simp [strLeB, h1]
      · by_cases h2 : y.toNat < x.toNat
        · right; simp [strLeB, h1, h2]
        · rcases ih ys with h | h
          · left; simp [strLeB, h1, h2, h]
          · right; simp [strLeB, h1, h2, h]

/-- Transitivity of the lexicographic comparison. -/
theorem strLeB_trans (a : List Char) : ∀ b c, strLeB a b = true →
    strLeB b c = true → strLeB a c = true := by
  induction a with
  | nil => intro b c _ _; rfl
  | cons x xs ih =>
    intro b c hab hbc
    cases b with
    | nil => simp [strLeB] at hab
    | cons y ys =>
      cases c with
      | nil => simp [strLeB] at hbc
      | cons z zs =>
        simp only [strLeB] at hab hbc ⊢
        split_ifs at hab hbc ⊢ <;>
          first
          | rfl
          | omega
          | exact ih ys zs hab hbc

instance : IsTotal String strLe :=
  ⟨fun a b => strLeB_total a.data b.data⟩

instance : IsTrans String strLe :=
  ⟨fun a b c => strLeB_trans a.data b.data c.data⟩

/-- Sorting is a permutation of the input. -/
theorem sortStrs_perm (l : List String) : List.Perm (sortStrs l) l :=
  List.perm_insertionSort _ l

/-- The sort is sorted under the lexicographic order. -/
theorem sortStrs_sorted (l : List String) : List.Sorted strLe (sortStrs l) :=
  List.sorted_insertionSort _ l

/-- The `found`-building fold keeps the accumulator and appends, in
order, exactly the fresh elements of a duplicate-free list. -/
theorem foldl_addUnique_eq (l : List String) :
    ∀ acc, l.Nodup →
      l.foldl addUnique acc = acc ++ l.filter (fun u => decide (u ∉ acc)) := by
  induction l with
  | nil => intro acc _; simp
  | cons u l ih =>
    intro acc h
    rw [List.nodup_cons] at h
    simp only [List.foldl_cons]
    by_cases hm : u ∈ acc
    · rw [show addUnique acc u = acc from if_pos hm, ih acc h.2,
        List.filter_cons]
      simp [hm]
    · rw [show addUnique acc u = acc ++ [u] from if_neg hm, ih _ h.2,
        List.filter_cons]
      have hfc : List.filter (fun a => decide (a ∉ acc ++ [u])) l
          = List.filter (fun a => decide (a ∉ acc)) l := by
        apply List.filter_congr
        intro a ha
        have hau : a ≠ u := fun e => h.1 (e ▸ ha)
        have hiff : (a ∉ acc ++ [u]) ↔ (a ∉ acc) := by simp [hau]
        exact decide_eq_decide.mpr hiff
      rw [hfc]
      simp [hm]

/-- Nodup survives one dialect's sorted filter. -/
theorem match_dialect_units_nodup (fnm : String → String → Bool)
    (known ms : List String) (suf : String) (h : known.Nodup) :
    (match_dialect_units fnm known ms suf).Nodup :=
  ((sortStrs_perm known).nodup_iff.mpr h).filter _

/-- One dialect's matches come out sorted. -/
theorem match_dialect_units_sorted (fnm : String → String → Bool)
    (known ms : List String) (suf : String) :
    List.Sorted strLe (match_dialect_units fnm known ms suf) :=
  List.Pairwise.filter _ (sortStrs_sorted known)

/-- Membership in one dialect's matches: known, and matched by the
empty pattern list or by some pattern via glob or suffix equality. -/
theorem match_dialect_units_mem (fnm : String → String → Bool)
    (known ms : List String) (suf : String) (u : String) :
    u ∈ match_dialect_units fnm known ms suf ↔
      u ∈ known ∧ (ms = [] ∨ ∃ m ∈ ms, fnm u m = true ∨ m ++ suf = u) := by
  unfold match_dialect_units
  rw [List.mem_filter, (sortStrs_perm known).mem_iff]
  simp only [Bool.or_eq_true, List.isEmpty_iff, List.any_eq_true, beq_iff_eq]
  constructor
  · rintro ⟨h1, h2⟩
    refine ⟨h1, ?_⟩
    rcases h2 with (h | ⟨m, hm, hf⟩) | ⟨m, hm, hs⟩
    · exact Or.inl h
    · exact Or.inr ⟨m, hm, Or.inl hf⟩
    · exact Or.inr ⟨m, hm, Or.inr hs⟩
  · rintro ⟨h1, h | ⟨m, hm, hf | hs⟩⟩
    · exact ⟨h1, Or.inl (Or.inl h)⟩
    · exact ⟨h1, Or.inl (Or.inr ⟨m, hm, hf⟩)⟩
    · exact ⟨h1, Or.inr ⟨m, hm, hs⟩⟩

/-- Structure of `match_units`: the modern matches followed by the
legacy matches that are not already present. -/
theorem match_units_eq (fnm : String → String → Bool)
    (ds vs ms : List String) (suf : String) (hd : ds.Nodup) (hv : vs.Nodup) :
    match_units fnm ds vs ms suf
      = match_dialect_units fnm ds ms suf
        ++ (match_dialect_units fnm vs ms suf).filter
            (fun u => decide (u ∉ match_dialect_units fnm ds ms suf)) := by
  unfold match_units
  rw [List.foldl_append,
    foldl_addUnique_eq _ _ (match_dialect_units_nodup fnm ds ms suf hd),
    foldl_addUnique_eq _ _ (match_dialect_units_nodup fnm vs ms suf hv)]
  simp

/-- C9: `match_units` returns the modern matches first and the legacy
matches second, each dialect's matches in sorted order, duplicates
removed keeping the first occurrence (so the whole result has no
duplicates); a unit is returned exactly when some dialect knows it
and either the pattern list is empty or some pattern glob-matches the
unit name or some pattern concatenated with the default suffix equals
it. -/
theorem match_units_spec (fnm : String → String → Bool)
    (ds vs ms : List String) (suf : String) (hd : ds.Nodup) (hv : vs.Nodup) :
    match_units fnm ds vs ms suf
      = match_dialect_units fnm ds ms suf
        ++ (match_dialect_units fnm vs ms suf).filter
            (fun u => decide (u ∉ match_dialect_units fnm ds ms suf)) ∧
    (match_units fnm ds vs ms suf).Nodup ∧
    List.Sorted strLe (match_dialect_units fnm ds ms suf) ∧
    List.Sorted strLe ((match_dialect_units fnm vs ms suf).filter
            (fun u => decide (u ∉ match_dialect_units fnm ds ms suf))) ∧
    (∀ u, u ∈ match_units fnm ds vs ms suf ↔
      (u ∈ ds ∨ u ∈ vs) ∧
      (ms = [] ∨ ∃ m ∈ ms, fnm u m = true ∨ m ++ suf = u)) := by
  have heq := match_units_eq fnm ds vs ms suf hd hv
  refine ⟨heq, ?_, match_dialect_units_sorted fnm ds ms suf,
    List.Pairwise.filter _ (match_dialect_units_sorted fnm vs ms suf), ?_⟩
  · rw [heq]
    refine List.Nodup.append (match_dialect_units_nodup fnm ds ms suf hd)
      (List.Nodup.filter _ (match_dialect_units_nodup fnm vs ms suf hv)) ?_
    intro a ha hb
    rw [List.mem_filter] at hb
    have hnb := hb.2
    simp only [decide_eq_true_eq] at hnb
    exact hnb ha
  · intro u
    rw [heq, List.mem_append, List.mem_filter]
    simp only [decide_eq_true_eq]
    rw [match_dialect_units_mem fnm ds ms suf u, match_dialect_units_mem fnm vs ms suf u]
    constructor
    · rintro (⟨h1, h2⟩ | ⟨⟨h1, h2⟩, _⟩) <;> exact ⟨by tauto, h2⟩
    · rintro ⟨h1 | h1, h2⟩
      · exact Or.inl ⟨h1, h2⟩
      · by_cases hin :
          u ∈ ds ∧ (ms = [] ∨ ∃ m ∈ ms, fnm u m = true ∨ m ++ suf = u)
        · exact Or.inl hin
        · exact Or.inr ⟨⟨h1, h2⟩, hin⟩

/-- Witness for C9: two small duplicate-free catalogs with an empty
pattern list. -/
theorem match_units_spec_witness :
    (["b.service", "a.service"] : List String).Nodup ∧
    (["b.service", "c.service"] : List String).Nodup ∧
    match_units fnmatchcase ["b.service", "a.service"] ["b.service", "c.service"]
        [] ".service"
      = ["a.service", "b.service", "c.service"] := by
  refine ⟨by decide, by decide, ?_⟩
  have h := (match_units_spec fnmatchcase ["b.service", "a.service"]
    ["b.service", "c.service"] [] ".service" (by decide) (by decide)).1
  rw [h]
  decide

/-- C1 (code bug): for the simple-type descriptor `demoConf`, whose
`Service.ExecRestart` list is the non-empty `["/bin/c"]`, the restart
verb still performs stop-then-start — its trace is exactly the start
spawn of `/bin/run`, the stop side being a silent kill of a missing
pid file — and never spawns the declared restart command.  The
dispatch at source line 796 tests the misspelled option name
`ExceRestart`, which nothing ever sets, so its list is always empty
and the stop/start branch runs regardless of `ExecRestart`. -/
theorem restart_misspelled_dispatch :
    demoConf.getlistD "Service" "ExecRestart" [] = ["/bin/c"] ∧
    (demoConf.getlistD "Service" "ExecRestart" []).isEmpty = false ∧
    (demoConf.getlistD "Service" "ExceRestart" []).isEmpty = true ∧
    (restart_unit_from demoWorld demoConf).res = .ok true ∧
    (restart_unit_from demoWorld demoConf).trace = [Step.spawnNoWait "/bin/run"] ∧
    Step.spawnNoWait "/bin/c" ∉ (restart_unit_from demoWorld demoConf).trace := by
  refine ⟨by decide, by decide, by decide, by decide, by decide, by decide⟩

/-- C2 (counterexample): in the two-unit batch where the sorted match
order is `u1.service` then `u2.service`, `u1.service`'s `ExecStartPre`
command `/bin/boom` exits 1, and `u2.service` would start fine, the
batch start raises the command-failed exception from the first unit
instead of returning false, and the second unit's start command is
never spawned: the exception propagates out of the loop and aborts
the iteration. -/
theorem start_of_units_abort_counterexample :
    (start_of_units fnmatchcase twoUnitCat boomWorld
        ["u1.service", "u2.service"]).res
      = .error (.commandFailed "ExecStartPre" "/bin/boom") ∧
    (start_of_units fnmatchcase twoUnitCat boomWorld
        ["u1.service", "u2.service"]).trace = [Step.spawnWait "/bin/boom"] ∧
    Step.spawnNoWait "/bin/run2" ∉ (start_of_units fnmatchcase twoUnitCat
        boomWorld ["u1.service", "u2.service"]).trace := by
  refine ⟨by decide, by decide, by decide⟩

/-- A start from a descriptor either raises or returns `True`. -/
theorem start_unit_from_ok (w : World) (conf : UnitConfigParser) (b : Bool)
    (h : (start_unit_from w conf).res = .ok b) : b = true := by
  simp only [start_unit_from] at h
  repeat' split at h
  all_goals simp_all

/-- Starting a named unit either raises or returns `True`. -/
theorem start_unit_ok (cat : Catalog) (w : World) (u : String) (b : Bool)
    (h : (start_unit cat w u).res = .ok b) : b = true := by
  unfold start_unit at h
  cases hr : read_unit cat u with
  | error e => rw [hr] at h; simp at h
  | ok conf => rw [hr] at h; exact start_unit_from_ok w conf b h

/-- The batch loop can only return its incoming `done` flag: no unit
can flip it to false without raising. -/
theorem start_units_loop_ok (cat : Catalog) (units : List String) :
    ∀ w done b, (start_units_loop cat w units done).res = .ok b → b = done := by
  induction units with
  | nil =>
    intro w done b h
    simp only [start_units_loop, Except.ok.injEq] at h
    exact h.symm
  | cons u rest ih =>
    intro w done b h
    simp only [start_units_loop] at h
    cases ho : (start_unit cat w u).res with
    | error e => rw [ho] at h; simp at h
    | ok b' =>
      rw [ho] at h
      have hb' := start_unit_ok cat w u b' ho
      subst hb'
      simp only [if_true] at h
      exact ih _ _ _ h

/-- C2 (amended): one unit's start failure aborts the batch instead of
degrading its result: when a unit's start raises, the loop returns
that unit's world, trace and exception and never reaches the
remaining units; and a batch start that returns at all returns true,
because `start_unit` either raises or returns `True`. -/
theorem start_of_units_amended (fnm : String → String → Bool) (cat : Catalog)
    (w : World) (modules : List String) :
    (∀ b, (start_of_units fnm cat w modules).res = .ok b → b = true) ∧
    (∀ u rest done e, (start_unit cat w u).res = .error e →
      start_units_loop cat w (u :: rest) done
        = ⟨(start_unit cat w u).w, (start_unit cat w u).trace, .error e⟩) := by
  constructor
  · intro b h
    exact start_units_loop_ok cat _ w true b h
  · intro u rest done e he
    simp only [start_units_loop]
    rw [he]

/-- Witness for the amended C2: a unit missing from an empty catalog
raises `unit file not found`, and the loop on it aborts with exactly
that unit's outcome, never touching the unit after it. -/
theorem start_of_units_amended_witness :
    (start_unit emptyCat demoWorld "ghost").res
        = .error (.unitNotFound "ghost") ∧
    start_units_loop emptyCat demoWorld ["ghost", "other"] true
      = ⟨(start_unit emptyCat demoWorld "ghost").w,
         (start_unit emptyCat demoWorld "ghost").trace,
         .error (.unitNotFound "ghost")⟩ :=
  ⟨rfl, (start_of_units_amended fnmatchcase emptyCat demoWorld
      ["ghost", "other"]).2 "ghost" ["other"] true (.unitNotFound "ghost") rfl⟩

end SystemctlPy
